import Mathlib

/-!
Shallow embedding of the Smart Scribbler repository: an Express server that
proxies two Google API calls (two variants), a Gemini service with
`analyzeNotes` and `generateDiagramImage`, and a React client whose
`processNotes` pipeline analyses notes, generates diagram images and renders
or exports the result.  Machine-level effects (HTTP, promises) are modelled by
explicit state passing and oracle functions standing for the external APIs;
fallible calls return `Except`.
-/

namespace Scribbler

/-- JSON values, the flat shape exchanged with the Gemini API and the
HTTP endpoints. -/
inductive Json where
  | str : String → Json
  | num : Int → Json
  | bool : Bool → Json
  | null : Json
  | arr : List Json → Json
  | obj : List (String × Json) → Json

/-- Response schemas as written in `geminiService.ts` (`Type.OBJECT`,
`Type.ARRAY`, `Type.STRING`, `Type.BOOLEAN`, with `properties` and
`required` lists on objects). -/
inductive Schema where
  | str : Schema
  | bool : Schema
  | arr : Schema → Schema
  | obj : List (String × Schema) → List String → Schema

mutual

/-- Conformance of a JSON value to a schema: a required key must be present,
and every declared property that is present must conform to its schema
(absent optional properties and undeclared extra keys are allowed, matching
JSON-schema semantics where `additionalProperties` is not restricted). -/
def conforms : Schema → Json → Bool
  | Schema.str, Json.str _ => true
  | Schema.bool, Json.bool _ => true
  | Schema.arr sch, Json.arr xs => xs.all (fun x => conforms sch x)
  | Schema.obj props reqd, Json.obj fields =>
      reqd.all (fun r => (fields.lookup r).isSome) && conformsFields props fields
  | _, _ => false

/-- Check each declared property of an object schema against the fields that
are actually present. -/
def conformsFields : List (String × Schema) → List (String × Json) → Bool
  | [], _ => true
  | (k, sch) :: rest, fields =>
      (match fields.lookup k with
       | some v => conforms sch v
       | none => true) && conformsFields rest fields

end

/-- The per-section schema written in `analyzeNotes`: four declared
properties, of which only `heading` and `content` are listed as required. -/
def sectionSchema : Schema :=
  Schema.obj
    [("heading", Schema.str),
     ("content", Schema.str),
     ("isElaborated", Schema.bool),
     ("diagrams", Schema.arr Schema.str)]
    ["heading", "content"]

/-- The `responseSchema` passed by `analyzeNotes` to
`ai.models.generateContent`: title and sections are required at the top
level; sections is an array of `sectionSchema` objects. -/
def responseSchema : Schema :=
  Schema.obj
    [("title", Schema.str),
     ("sections", Schema.arr sectionSchema)]
    ["title", "sections"]

/-- A section object carrying only the two required fields. -/
def c4section : List (String × Json) :=
  [("heading", Json.str "h"), ("content", Json.str "c")]

/-- A conforming analysis result whose single section carries only the two
required fields, with no `isElaborated` flag. -/
def c4cex : Json :=
  Json.obj
    [("title", Json.str "t"),
     ("sections", Json.arr [Json.obj c4section])]

theorem lookup_mem {β : Type} {l : List (String × β)} {k : String} {v : β}
    (h : l.lookup k = some v) : (k, v) ∈ l := by
  induction l with
  | nil => simp [List.lookup] at h
  | cons p t ih =>
    obtain ⟨a, b⟩ := p
    by_cases hk : k = a
    · subst hk
      simp [List.lookup] at h
      simp [h]
    · have hb : (k == a) = false := beq_eq_false_iff_ne.mpr hk
      simp [List.lookup, hb] at h
      exact List.mem_cons_of_mem _ (ih h)

theorem conformsFields_sound {fields : List (String × Json)} {k : String}
    {sch : Schema} {v : Json} :
    ∀ {props : List (String × Schema)}, conformsFields props fields = true →
      (k, sch) ∈ props → fields.lookup k = some v → conforms sch v = true := by
  intro props
  induction props with
  | nil => intro _ hmem; simp at hmem
  | cons p rest ih =>
    obtain ⟨k0, sch0⟩ := p
    intro hc hmem hl
    rw [conformsFields, Bool.and_eq_true] at hc
    obtain ⟨h1, h2⟩ := hc
    rcases List.mem_cons.mp hmem with heq | hmem2
    · obtain ⟨hk, hs⟩ := Prod.mk.injEq .. ▸ heq
      subst hk; subst hs
      rw [hl] at h1
      exact h1
    · exact ih h2 hmem2 hl

theorem conforms_str_inv {v : Json} (h : conforms Schema.str v = true) :
    ∃ s, v = Json.str s := by
  cases v with
  | str s => exact ⟨s, rfl⟩
  | num n => simp [conforms] at h
  | bool b => simp [conforms] at h
  | null => simp [conforms] at h
  | arr xs => simp [conforms] at h
  | obj fs => simp [conforms] at h

theorem conforms_arr_inv {sch : Schema} {v : Json}
    (h : conforms (Schema.arr sch) v = true) :
    ∃ xs, v = Json.arr xs ∧ ∀ x ∈ xs, conforms sch x = true := by
  cases v with
  | arr xs =>
    refine ⟨xs, rfl, ?_⟩
    rw [conforms] at h
    exact fun x hx => List.all_eq_true.mp h x hx
  | str s => simp [conforms] at h
  | num n => simp [conforms] at h
  | bool b => simp [conforms] at h
  | null => simp [conforms] at h
  | obj fs => simp [conforms] at h

theorem conforms_obj_inv {props : List (String × Schema)} {reqd : List String}
    {v : Json} (h : conforms (Schema.obj props reqd) v = true) :
    ∃ fields, v = Json.obj fields ∧
      (∀ r ∈ reqd, (fields.lookup r).isSome = true) ∧
      conformsFields props fields = true := by
  cases v with
  | obj fields =>
    rw [conforms, Bool.and_eq_true] at h
    obtain ⟨h1, h2⟩ := h
    exact ⟨fields, rfl, fun r hr => List.all_eq_true.mp h1 r hr, h2⟩
  | str s => simp [conforms] at h
  | num n => simp [conforms] at h
  | bool b => simp [conforms] at h
  | null => simp [conforms] at h
  | arr xs => simp [conforms] at h

/-- C4 (counterexample): a JSON value that conforms to `responseSchema`
although its only section has no `isElaborated` field — the schema does not
guarantee the elaboration flag, since `required` lists only `heading` and
`content`. -/
theorem schema_allows_missing_isElaborated :
    conforms responseSchema c4cex = true
    ∧ (c4section.lookup "isElaborated").isSome = false := by
  decide

/-- C4 (amended): every JSON value conforming to `responseSchema` is an
object with a `title` string and a `sections` array, and every section in
that array is an object with a `heading` string and a `content` string;
`isElaborated` (and `diagrams`), though declared, are not required. -/
theorem responseSchema_required_fields :
    ∀ j, conforms responseSchema j = true →
      ∃ fields, j = Json.obj fields ∧
        (∃ t, fields.lookup "title" = some (Json.str t)) ∧
        ∃ secs, fields.lookup "sections" = some (Json.arr secs) ∧
          ∀ sec ∈ secs, ∃ sf, sec = Json.obj sf ∧
            (∃ h, sf.lookup "heading" = some (Json.str h)) ∧
            (∃ c, sf.lookup "content" = some (Json.str c)) := by
  intro j hj
  rw [responseSchema] at hj
  obtain ⟨fields, rfl, hreq, hcf⟩ := conforms_obj_inv hj
  have ht : (fields.lookup "title").isSome = true := hreq "title" (by simp)
  obtain ⟨vt, hvt⟩ := Option.isSome_iff_exists.mp ht
  have hct : conforms Schema.str vt = true :=
    conformsFields_sound hcf (by simp) hvt
  obtain ⟨t, rfl⟩ := conforms_str_inv hct
  have hs : (fields.lookup "sections").isSome = true := hreq "sections" (by simp)
  obtain ⟨vs, hvs⟩ := Option.isSome_iff_exists.mp hs
  have hcs : conforms (Schema.arr sectionSchema) vs = true :=
    conformsFields_sound hcf (by simp) hvs
  obtain ⟨secs, rfl, hall⟩ := conforms_arr_inv hcs
  refine ⟨fields, rfl, ⟨t, hvt⟩, secs, hvs, ?_⟩
  intro sec hsec
  have hcsec : conforms sectionSchema sec = true := hall sec hsec
  rw [sectionSchema] at hcsec
  obtain ⟨sf, rfl, hsreq, hscf⟩ := conforms_obj_inv hcsec
  have hh : (sf.lookup "heading").isSome = true := hsreq "heading" (by simp)
  obtain ⟨vh, hvh⟩ := Option.isSome_iff_exists.mp hh
  obtain ⟨hstr, rfl⟩ := conforms_str_inv (conformsFields_sound hscf (by simp) hvh)
  have hc : (sf.lookup "content").isSome = true := hsreq "content" (by simp)
  obtain ⟨vc, hvc⟩ := Option.isSome_iff_exists.mp hc
  obtain ⟨cstr, rfl⟩ := conforms_str_inv (conformsFields_sound hscf (by simp) hvc)
  exact ⟨sf, rfl, ⟨hstr, hvh⟩, ⟨cstr, hvc⟩⟩

/-- Witness for C4 (amended) at the concrete value `c4cex`. -/
theorem responseSchema_required_fields_witness :
    ∃ fields, c4cex = Json.obj fields ∧
      (∃ t, fields.lookup "title" = some (Json.str t)) ∧
      ∃ secs, fields.lookup "sections" = some (Json.arr secs) ∧
        ∀ sec ∈ secs, ∃ sf, sec = Json.obj sf ∧
          (∃ h, sf.lookup "heading" = some (Json.str h)) ∧
          (∃ c, sf.lookup "content" = some (Json.str c)) :=
  responseSchema_required_fields c4cex (by decide)

/-- The fixed system instruction of `analyzeNotes` (the template literal in
`geminiService.ts`, braces and quotes escaped). -/
def systemInstruction : String :=
  "\n    You are a \"Smart Scribbler\" assistant. Your task is to transform handwritten notes or digital documents into a professional, structured format.\n    \n    Rules:\n    1. UNDERLINED WORDS: Identify words or phrases that are underlined for emphasis. Elaborate on these concepts significantly, providing detailed context, definitions, or examples.\n    2. EMPTY HEADINGS: If you find a heading or title with no content under it, generate concise but highly contextual information that fits the overall theme of the notes.\n    3. DIAGRAMS: If there are any diagrams, sketches, or charts, provide a detailed textual description of them. Start these descriptions with \"[DIAGRAM_DESCRIPTION]: \".\n    4. CONCISENESS: For all other parts of the notes, keep the summary concise, scannable, and to the point.\n    5. STRUCTURE: Use Markdown for the output. Use clear headings (H1, H2, H3).\n    6. OUTPUT FORMAT: Return a JSON object with the following structure:\n       \x7b\n         \"title\": \"Main Title of the Notes\",\n         \"sections\": [\n           \x7b\n             \"heading\": \"Section Heading\",\n             \"content\": \"Elaborated or concise content in Markdown\",\n             \"isElaborated\": boolean,\n             \"diagrams\": [\"Description of diagram 1\", ...]\n           \x7d\n         ]\n       \x7d\n  "

/-- JavaScript `a || b` on a possibly-undefined string: `undefined` and the
empty string are falsy. -/
def jsOrStr (a : Option String) (b : String) : String :=
  match a with
  | none => b
  | some t => if t = "" then b else t

/-- The tail of `analyzeNotes`: `JSON.parse(response.text || "{}")`.  The
`parse` parameter stands for `JSON.parse`, returning `none` exactly when it
would throw; `text` is the model response's text, `none` when absent. -/
def analyzeNotesParse (parse : String → Option Json) (text : Option String) :
    Except String Json :=
  match parse (jsOrStr text "\x7b\x7d") with
  | some j => Except.ok j
  | none => Except.error "Unexpected token in JSON"

/-- C10: with empty or missing response text, `analyzeNotes` parses the
fallback `"{}"` and returns the empty object (which has neither a `title`
nor a `sections` field) instead of throwing; it throws exactly when the
response text is non-empty and is not valid JSON. -/
theorem analyzeNotes_empty_text_yields_empty_object
    (parse : String → Option Json)
    (hp : parse "\x7b\x7d" = some (Json.obj [])) :
    analyzeNotesParse parse none = Except.ok (Json.obj [])
    ∧ analyzeNotesParse parse (some "") = Except.ok (Json.obj [])
    ∧ (([] : List (String × Json)).lookup "title" = none
        ∧ ([] : List (String × Json)).lookup "sections" = none)
    ∧ (∀ t j, t ≠ "" → parse t = some j →
        analyzeNotesParse parse (some t) = Except.ok j)
    ∧ (∀ t e, analyzeNotesParse parse (some t) = Except.error e →
        t ≠ "" ∧ parse t = none) := by
  refine ⟨?_, ?_, ⟨rfl, rfl⟩, ?_, ?_⟩
  · simp [analyzeNotesParse, jsOrStr, hp]
  · simp [analyzeNotesParse, jsOrStr, hp]
  · intro t j ht hj
    simp [analyzeNotesParse, jsOrStr, ht, hj]
  · intro t e he
    by_cases ht : t = ""
    · subst ht
      simp [analyzeNotesParse, jsOrStr, hp] at he
    · refine ⟨ht, ?_⟩
      rcases hpt : parse t with _ | j
      · rfl
      · simp [analyzeNotesParse, jsOrStr, ht, hpt] at he

/-- A concrete stand-in for `JSON.parse` accepting only the fallback text. -/
def c10parse : String → Option Json :=
  fun s => if s = "\x7b\x7d" then some (Json.obj []) else none

/-- Witness for C10 at the concrete parser `c10parse`. -/
theorem analyzeNotes_empty_text_witness :
    analyzeNotesParse c10parse none = Except.ok (Json.obj [])
    ∧ analyzeNotesParse c10parse (some "") = Except.ok (Json.obj [])
    ∧ (([] : List (String × Json)).lookup "title" = none
        ∧ ([] : List (String × Json)).lookup "sections" = none)
    ∧ (∀ t j, t ≠ "" → c10parse t = some j →
        analyzeNotesParse c10parse (some t) = Except.ok j)
    ∧ (∀ t e, analyzeNotesParse c10parse (some t) = Except.error e →
        t ≠ "" ∧ c10parse t = none) :=
  analyzeNotes_empty_text_yields_empty_object c10parse (by rfl)

/-- One part of a Gemini generate-content response candidate. -/
structure InlinePart where
  text : Option String := none
  inlineData : Option String := none
deriving DecidableEq

/-- The `content` of a response candidate. -/
structure CandContent where
  parts : Option (List InlinePart) := none
deriving DecidableEq

/-- A response candidate. -/
structure Candidate where
  content : Option CandContent := none
deriving DecidableEq

/-- A Gemini generate-content response, as read by `generateDiagramImage`. -/
structure GenResponse where
  candidates : Option (List Candidate) := none
deriving DecidableEq

/-- The `for` loop of `generateDiagramImage`: return a data URI for the
first part carrying inline image data. -/
def firstInlineImage : List InlinePart → Option String
  | [] => none
  | p :: ps =>
    match p.inlineData with
    | some d => some ("data:image/png;base64," ++ d)
    | none => firstInlineImage ps

/-- `generateDiagramImage`, applied to the model response for one diagram
description: the data URI of the first inline-data part of the first
candidate, or `null` when there is none. -/
def generateDiagramImage (resp : GenResponse) : Option String :=
  firstInlineImage
    ((((resp.candidates.bind List.head?).bind Candidate.content).bind CandContent.parts).getD [])

/-- A section of the client's `ProcessedNotes` (`part_002`). -/
structure Section where
  heading : String
  content : String
  isElaborated : Bool
  diagrams : Option (List String) := none
  diagramImages : Option (List String) := none
deriving DecidableEq

/-- The client's `ProcessedNotes` result. -/
structure ProcessedNotes where
  title : String
  sections : List Section
deriving DecidableEq

/-- `Promise.all` over the results of mapping a fallible call on a list:
resolves to the list of results, or rejects when any call rejects. -/
def promiseAll {α β : Type} (f : α → Except String β) :
    List α → Except String (List β)
  | [] => Except.ok []
  | a :: t =>
    match f a with
    | Except.error e => Except.error e
    | Except.ok b => (promiseAll f t).map fun bs => b :: bs

/-- The per-section image-generation step of `processNotes`: when the
section has a non-empty diagrams list, run the generator on every
description and store the non-null results (`images.filter(img => img !==
null)`); a rejected generation rejects the whole step. -/
def withImagesE (gen : String → Except String (Option String)) (s : Section) :
    Except String Section :=
  match s.diagrams with
  | some ds =>
    if 0 < ds.length then
      (promiseAll gen ds).map fun images =>
        { s with diagramImages := some (images.filterMap id) }
    else Except.ok s
  | none => Except.ok s

/-- The fan-out of `processNotes` over all sections. -/
def sectionsWithImages (gen : String → Except String (Option String))
    (secs : List Section) : Except String (List Section) :=
  promiseAll (withImagesE gen) secs

/-- A model response with an inline image only for description `"d1"`. -/
def c2resp (d : String) : GenResponse :=
  if d = "d1" then
    { candidates := some [{ content := some { parts := some [{ inlineData := some "IMG" }] } }] }
  else
    { candidates := some [{ content := some { parts := some [{ text := some "no image" }] } }] }

/-- A section with two diagram descriptions. -/
def c2section : Section :=
  { heading := "h", content := "c", isElaborated := false, diagrams := some ["d0", "d1"] }

/-- The section produced by the pipeline on `c2section` and `c2resp`. -/
def c2out : Section :=
  { c2section with diagramImages := some ["data:image/png;base64,IMG"] }

/-- C2 (counterexample): with diagrams `["d0", "d1"]` where
`generateDiagramImage` yields `null` for `"d0"` and an image for `"d1"`,
the pipeline stores `diagramImages = ["data:image/png;base64,IMG"]`: entry
0 is the image of description 1, while the image generated from description
0 is `null` — the index correspondence claimed for every section fails. -/
theorem diagramImages_misaligned_on_null :
    withImagesE (fun d => Except.ok (generateDiagramImage (c2resp d))) c2section
      = Except.ok c2out
    ∧ (c2section.diagrams.getD [])[0]? = some "d0"
    ∧ (c2out.diagramImages.getD [])[0]? = some "data:image/png;base64,IMG"
    ∧ generateDiagramImage (c2resp "d0") = none :=
  ⟨rfl, rfl, rfl, rfl⟩

theorem promiseAll_pure {α β : Type} (f : α → β) (l : List α) :
    promiseAll (fun a => (Except.ok (f a) : Except String β)) l = Except.ok (l.map f) := by
  induction l with
  | nil => rfl
  | cons a t ih => simp [promiseAll, ih, Except.map]

theorem filterMap_id_getElem {α : Type} :
    ∀ (l : List (Option α)), (∀ o ∈ l, o.isSome = true) →
      ∀ i : Nat, (l.filterMap id)[i]? = (l[i]?).join := by
  intro l
  induction l with
  | nil => intro _ i; simp
  | cons o t ih =>
    intro h i
    obtain ⟨a, rfl⟩ := Option.isSome_iff_exists.mp (h o (List.mem_cons_self o t))
    cases i with
    | zero => simp [List.filterMap_cons]
    | succ n =>
      simp only [List.filterMap_cons, id_eq, List.getElem?_cons_succ]
      exact ih (fun x hx => h x (List.mem_cons_of_mem _ hx)) n

/-- C2 (amended): for a section with a non-empty diagrams list, the stored
`diagramImages` list is the list of non-null generation results in order
(null results dropped); the i-th image corresponds to the i-th description
whenever no description produced null. -/
theorem diagramImages_filterMap_of_results :
    ∀ (gen : String → Option String) (s : Section) (ds : List String),
      s.diagrams = some ds → 0 < ds.length →
      ∃ s2, withImagesE (fun d => Except.ok (gen d)) s = Except.ok s2
        ∧ s2.diagramImages = some ((ds.map gen).filterMap id)
        ∧ ((∀ d ∈ ds, (gen d).isSome = true) →
            ∀ i : Nat, (s2.diagramImages.getD [])[i]? = (ds[i]?).bind gen) := by
  intro gen s ds hd hl
  refine ⟨{ s with diagramImages := some ((ds.map gen).filterMap id) }, ?_, rfl, ?_⟩
  · unfold withImagesE
    rw [hd]
    simp [hl, promiseAll_pure, Except.map]
  · intro hall i
    have hmem : ∀ o ∈ ds.map gen, o.isSome = true := by
      intro o ho
      obtain ⟨d, hd2, rfl⟩ := List.mem_map.mp ho
      exact hall d hd2
    have h1 := filterMap_id_getElem (ds.map gen) hmem i
    simp only [Option.getD]
    rw [h1, List.getElem?_map]
    cases ds[i]? with
    | none => rfl
    | some d => rfl

/-- A section for the C2 witness whose generator never returns null. -/
def c2wsection : Section :=
  { heading := "h2", content := "c2", isElaborated := true, diagrams := some ["a", "b"] }

/-- A generator returning an image for every description. -/
def c2wgen : String → Option String := fun d => some ("I" ++ d)

/-- Witness for C2 (amended) at `c2wsection` and `c2wgen`. -/
theorem diagramImages_filterMap_witness :
    ∃ s2, withImagesE (fun d => Except.ok (c2wgen d)) c2wsection = Except.ok s2
      ∧ s2.diagramImages = some (((["a", "b"] : List String).map c2wgen).filterMap id)
      ∧ ((∀ d ∈ (["a", "b"] : List String), (c2wgen d).isSome = true) →
          ∀ i : Nat, (s2.diagramImages.getD [])[i]? = ((["a", "b"] : List String)[i]?).bind c2wgen) :=
  diagramImages_filterMap_of_results c2wgen c2wsection ["a", "b"] rfl (by decide)

/-- A `textRun` of a Google Docs paragraph element. -/
structure TextRun where
  content : String
deriving DecidableEq

/-- An element of a Google Docs paragraph; only `textRun` elements carry
text. -/
structure ParagraphElement where
  textRun : Option TextRun := none
deriving DecidableEq

/-- A Google Docs paragraph. -/
structure Paragraph where
  elements : Option (List ParagraphElement) := none
deriving DecidableEq

/-- A structural element of a document body; non-paragraph elements (such
as section breaks) have no `paragraph`. -/
structure StructuralElement where
  paragraph : Option Paragraph := none
deriving DecidableEq

/-- A Google Docs document body. -/
structure DocBody where
  content : Option (List StructuralElement) := none
deriving DecidableEq

/-- A fetched Google Docs document, as read by the handlers. -/
structure GoogleDoc where
  body : Option DocBody := none
deriving DecidableEq

/-- The extraction loop of the POST /api/google-doc/content handler:
`content += el.textRun.content` over every element of every paragraph,
skipping non-paragraph structural elements and non-textRun paragraph
elements. -/
def extractDocText (doc : GoogleDoc) : String :=
  ((doc.body.bind DocBody.content).getD []).foldl
    (fun content element =>
      match element.paragraph with
      | some p =>
        (p.elements.getD []).foldl
          (fun c el =>
            match el.textRun with
            | some tr => c ++ tr.content
            | none => c) content
      | none => content) ""

/-- The `textRun` content strings of a document, in document order. -/
def docTextRuns (doc : GoogleDoc) : List String :=
  ((doc.body.bind DocBody.content).getD []).flatMap fun element =>
    match element.paragraph with
    | some p => (p.elements.getD []).filterMap fun el => (el.textRun).map TextRun.content
    | none => []

theorem sjoin_cons (s : String) (l : List String) :
    String.join (s :: l) = s ++ String.join l := by
  apply String.ext
  simp [String.join_eq, String.data_append]

theorem sjoin_append (a b : List String) :
    String.join (a ++ b) = String.join a ++ String.join b := by
  induction a with
  | nil => simp [String.join, String.empty_append]
  | cons s t ih =>
    rw [List.cons_append, sjoin_cons, sjoin_cons, ih, String.append_assoc]

theorem foldl_textRuns (pes : List ParagraphElement) :
    ∀ init : String,
      pes.foldl (fun c el => match el.textRun with
        | some tr => c ++ tr.content
        | none => c) init
        = init ++ String.join (pes.filterMap fun el => (el.textRun).map TextRun.content) := by
  induction pes with
  | nil =>
    intro init
    simp [String.join, String.append_empty]
  | cons pe t ih =>
    intro init
    cases hpe : pe.textRun with
    | some tr =>
      simp only [List.foldl_cons, List.filterMap_cons, hpe, Option.map_some']
      rw [ih, sjoin_cons, String.append_assoc]
    | none =>
      simp only [List.foldl_cons, List.filterMap_cons, hpe, Option.map_none']
      exact ih init

theorem foldl_elements (els : List StructuralElement) :
    ∀ init : String,
      els.foldl (fun content element =>
        match element.paragraph with
        | some p =>
          (p.elements.getD []).foldl (fun c el =>
            match el.textRun with
            | some tr => c ++ tr.content
            | none => c) content
        | none => content) init
      = init ++ String.join (els.flatMap fun element =>
          match element.paragraph with
          | some p => (p.elements.getD []).filterMap fun el => (el.textRun).map TextRun.content
          | none => []) := by
  induction els with
  | nil =>
    intro init
    simp [String.join, String.append_empty]
  | cons e t ih =>
    intro init
    cases he : e.paragraph with
    | some p =>
      simp only [List.foldl_cons, List.flatMap_cons, he]
      rw [foldl_textRuns, ih, sjoin_append, String.append_assoc]
    | none =>
      simp only [List.foldl_cons, List.flatMap_cons, he, List.nil_append]
      exact ih init

theorem extractDocText_eq_join (doc : GoogleDoc) :
    extractDocText doc = String.join (docTextRuns doc) := by
  unfold extractDocText docTextRuns
  rw [foldl_elements, String.empty_append]

/-- OAuth tokens, as exchanged for an authorization code and sent in the
body of POST /api/google-doc/content. -/
structure Tokens where
  access_token : String
deriving DecidableEq

/-- `JSON.stringify` of a tokens object. -/
def Tokens.stringify (t : Tokens) : String :=
  "\x7b\"access_token\":\"" ++ t.access_token ++ "\"\x7d"

/-- A `google.auth.OAuth2` client: the configuration passed to the
constructor plus the credentials stored by `setCredentials`. -/
structure OAuth2Client where
  clientId : Option String
  clientSecret : Option String
  redirectUri : String
  credentials : Option Tokens
deriving DecidableEq

/-- The environment variables the servers read. -/
structure Env where
  GOOGLE_CLIENT_ID : Option String
  GOOGLE_CLIENT_SECRET : Option String
  APP_URL : Option String
deriving DecidableEq

/-- JavaScript template interpolation of a possibly-undefined variable. -/
def jsTemplate (s : Option String) : String := s.getD "undefined"

/-- JavaScript `a || b` on possibly-undefined strings (`undefined` and `""`
are falsy). -/
def jsOr (a b : Option String) : Option String :=
  match a with
  | none => b
  | some s => if s = "" then b else some s

/-- The shared OAuth2 client of the shared-client server variant, created
once at startup; its `credentials` field is the only mutable server
state. -/
def oauth2Client (env : Env) : OAuth2Client :=
  { clientId := env.GOOGLE_CLIENT_ID
    clientSecret := env.GOOGLE_CLIENT_SECRET
    redirectUri := jsTemplate env.APP_URL ++ "/auth/callback"
    credentials := none }

/-- `getOAuth2Client` of the per-request-client variant: a fresh client,
falling back to the environment when no override is supplied. -/
def getOAuth2Client (env : Env) (clientId clientSecret : Option String) :
    OAuth2Client :=
  { clientId := jsOr clientId env.GOOGLE_CLIENT_ID
    clientSecret := jsOr clientSecret env.GOOGLE_CLIENT_SECRET
    redirectUri := jsTemplate env.APP_URL ++ "/auth/callback"
    credentials := none }

/-- Modelled library function: `generateAuthUrl` builds the authorization
URL from the client configuration and the fixed access type and scope; it
does not read stored credentials. -/
def generateAuthUrl (c : OAuth2Client) : String :=
  "https://accounts.google.com/o/oauth2/v2/auth?access_type=offline&scope=https://www.googleapis.com/auth/documents.readonly&response_type=code&client_id="
    ++ jsTemplate c.clientId ++ "&redirect_uri=" ++ c.redirectUri

/-- HTTP responses the handlers produce: `res.json(...)` with a JSON body,
or `res.send(...)` of an HTML or text body, each with a status code. -/
inductive Response where
  | json : Nat → Json → Response
  | page : Nat → String → Response

/-- The callback page up to the interpolated `JSON.stringify(tokens)`. -/
def callbackHtmlA : String :=
  "\n        <html>\n          <body>\n            <script>\n              if (window.opener) \x7b\n                window.opener.postMessage(\x7b type: \x27GOOGLE_AUTH_SUCCESS\x27, tokens: "

/-- The callback page after the interpolated tokens: close the popup, or
redirect to '/' when there is no opener. -/
def callbackHtmlB : String :=
  " \x7d, \x27*\x27);\n                window.close();\n              \x7d else \x7b\n                window.location.href = \x27/\x27;\n              \x7d\n            </script>\n            <p>Authentication successful. This window should close automatically.</p>\n          </body>\n        </html>\n      "

/-- The HTML page sent on a successful token exchange. -/
def successPage (tokens : Tokens) : String :=
  callbackHtmlA ++ Tokens.stringify tokens ++ callbackHtmlB

/-- The requests the shared-client server routes (with the body and query
fields its handlers read). -/
inductive Request where
  | authUrl : Request
  | authCallback : String → Request
  | docContent : String → Tokens → Request

/-- One request step of the shared-client variant: the server state is the
shared client.  `getTok` models `oauth2Client.getToken` (a function of the
client configuration and the code), `getDoc` models `docs.documents.get`
(a function of the authenticated client and the document id); both model
the remote Google APIs. -/
def step000
    (getTok : Option String → Option String → String → String → Except String Tokens)
    (getDoc : OAuth2Client → String → Except String GoogleDoc)
    (client : OAuth2Client) : Request → OAuth2Client × Response
  | Request.authUrl =>
      (client, Response.json 200 (Json.obj [("url", Json.str (generateAuthUrl client))]))
  | Request.authCallback code =>
      match getTok client.clientId client.clientSecret client.redirectUri code with
      | Except.ok tokens => (client, Response.page 200 (successPage tokens))
      | Except.error _ => (client, Response.page 500 "Authentication failed")
  | Request.docContent docId tokens =>
      let c := { client with credentials := some tokens }
      match getDoc c docId with
      | Except.ok doc =>
          (c, Response.json 200 (Json.obj [("content", Json.str (extractDocText doc))]))
      | Except.error _ =>
          (c, Response.json 500 (Json.obj [("error", Json.str "Failed to fetch Google Doc")]))

/-- The requests of the per-request-client variant, which additionally
accepts optional `clientId`/`clientSecret` overrides. -/
inductive Request001 where
  | authUrl : Option String → Option String → Request001
  | authCallback : String → Request001
  | docContent : String → Tokens → Option String → Option String → Request001

/-- One request of the per-request-client variant: a fresh client per
request, no server state. -/
def handle001 (env : Env)
    (getTok : Option String → Option String → String → String → Except String Tokens)
    (getDoc : OAuth2Client → String → Except String GoogleDoc) :
    Request001 → Response
  | Request001.authUrl cid cs =>
      Response.json 200
        (Json.obj [("url", Json.str (generateAuthUrl (getOAuth2Client env cid cs)))])
  | Request001.authCallback code =>
      let c := getOAuth2Client env none none
      match getTok c.clientId c.clientSecret c.redirectUri code with
      | Except.ok tokens => Response.page 200 (successPage tokens)
      | Except.error _ => Response.page 500 "Authentication failed"
  | Request001.docContent docId tokens cid cs =>
      let c := { getOAuth2Client env cid cs with credentials := some tokens }
      match getDoc c docId with
      | Except.ok doc =>
          Response.json 200 (Json.obj [("content", Json.str (extractDocText doc))])
      | Except.error _ =>
          Response.json 500 (Json.obj [("error", Json.str "Failed to fetch Google Doc")])

/-- A concrete environment for counterexamples and witnesses. -/
def env0 : Env :=
  { GOOGLE_CLIENT_ID := some "cid"
    GOOGLE_CLIENT_SECRET := some "sec"
    APP_URL := some "http://app" }

/-- A token-exchange oracle that always fails. -/
def getTok0 : Option String → Option String → String → String → Except String Tokens :=
  fun _ _ _ _ => Except.error "invalid_grant"

/-- A document-fetch oracle that always fails. -/
def getDoc0 : OAuth2Client → String → Except String GoogleDoc :=
  fun _ _ => Except.error "fetch failed"

/-- C1 (counterexample): handling a POST /api/google-doc/content request in
the shared-client variant does not leave the server state unchanged — the
request's tokens are stored on the shared client by `setCredentials`. -/
theorem docContent_mutates_shared_client :
    (step000 getTok0 getDoc0 (oauth2Client env0)
        (Request.docContent "doc1" { access_token := "tok" })).1
      ≠ oauth2Client env0 := by
  decide

theorem step000_config_preserved :
    ∀ getTok getDoc client r,
      ∃ creds, (step000 getTok getDoc client r).1 = { client with credentials := creds } := by
  intro gt gd client r
  cases r with
  | authUrl => exact ⟨client.credentials, rfl⟩
  | authCallback code =>
    rcases hgt : gt client.clientId client.clientSecret client.redirectUri code with e | t <;>
      exact ⟨client.credentials, by simp [step000, hgt]⟩
  | docContent d t =>
    rcases hgd : gd { client with credentials := some t } d with e | doc <;>
      exact ⟨some t, by simp [step000, hgd]⟩

theorem step000_response_ignores_credentials :
    ∀ getTok getDoc c creds r,
      (step000 getTok getDoc { c with credentials := creds } r).2
        = (step000 getTok getDoc c r).2 := by
  intro gt gd c creds r
  cases r with
  | authUrl => simp [step000, generateAuthUrl]
  | authCallback code =>
    rcases hgt : gt c.clientId c.clientSecret c.redirectUri code with e | t <;>
      simp [step000, hgt]
  | docContent d t =>
    rcases hgd : gd { c with credentials := some t } d with e | doc <;>
      simp [step000, hgd]

/-- C1 (amended): in the shared-client variant a request may change the
stored credentials, but it changes nothing a response depends on: for
every pair of requests, processing the first does not alter the response
the server gives to the second. -/
theorem step000_response_independent_of_prior_request :
    ∀ getTok getDoc client r1 r2,
      (step000 getTok getDoc (step000 getTok getDoc client r1).1 r2).2
        = (step000 getTok getDoc client r2).2 := by
  intro gt gd client r1 r2
  obtain ⟨creds, hc⟩ := step000_config_preserved gt gd client r1
  rw [hc]
  exact step000_response_ignores_credentials gt gd client creds r2

/-- C9: with no clientId/clientSecret supplied, the per-request-client
variant's /api/auth/url and /api/google-doc/content handlers return the
same response as the shared-client variant's, whatever credentials the
shared client has stored, given the same environment and the same Google
API behaviour. -/
theorem variants_agree_without_override :
    ∀ env getTok getDoc creds docId tokens,
      handle001 env getTok getDoc (Request001.authUrl none none)
          = (step000 getTok getDoc { oauth2Client env with credentials := creds }
              Request.authUrl).2
      ∧ handle001 env getTok getDoc (Request001.docContent docId tokens none none)
          = (step000 getTok getDoc { oauth2Client env with credentials := creds }
              (Request.docContent docId tokens)).2 := by
  intro env gt gd creds d t
  constructor
  · simp [handle001, step000, getOAuth2Client, oauth2Client, jsOr, generateAuthUrl]
  · simp only [handle001, step000, getOAuth2Client, oauth2Client, jsOr]
    rcases hgd : gd { clientId := env.GOOGLE_CLIENT_ID, clientSecret := env.GOOGLE_CLIENT_SECRET, redirectUri := jsTemplate env.APP_URL ++ "/auth/callback", credentials := some t } d with e | doc <;>
      simp [hgd]

/-- C5: the POST /api/google-doc/content handler of either variant
responds 200 with `{content}`, where `content` is the concatenation in
document order of the `textRun` content strings of every element of every
paragraph (everything else contributes nothing), and responds 500 with
`{error: "Failed to fetch Google Doc"}` when the fetch fails. -/
theorem docContent_response_spec :
    ∀ getTok getDoc (client : OAuth2Client) (env : Env)
      (cid cs : Option String) (docId : String) (tokens : Tokens),
      (∀ doc, getDoc { client with credentials := some tokens } docId = Except.ok doc →
        (step000 getTok getDoc client (Request.docContent docId tokens)).2
          = Response.json 200 (Json.obj [("content", Json.str (String.join (docTextRuns doc)))]))
      ∧ (∀ e, getDoc { client with credentials := some tokens } docId = Except.error e →
        (step000 getTok getDoc client (Request.docContent docId tokens)).2
          = Response.json 500 (Json.obj [("error", Json.str "Failed to fetch Google Doc")]))
      ∧ (∀ doc, getDoc { getOAuth2Client env cid cs with credentials := some tokens } docId
            = Except.ok doc →
        handle001 env getTok getDoc (Request001.docContent docId tokens cid cs)
          = Response.json 200 (Json.obj [("content", Json.str (String.join (docTextRuns doc)))]))
      ∧ (∀ e, getDoc { getOAuth2Client env cid cs with credentials := some tokens } docId
            = Except.error e →
        handle001 env getTok getDoc (Request001.docContent docId tokens cid cs)
          = Response.json 500 (Json.obj [("error", Json.str "Failed to fetch Google Doc")])) := by
  intro gt gd client env cid cs d t
  refine ⟨?_, ?_, ?_, ?_⟩
  · intro doc hdoc
    simp [step000, hdoc, extractDocText_eq_join]
  · intro e he
    simp [step000, he]
  · intro doc hdoc
    simp [handle001, hdoc, extractDocText_eq_join]
  · intro e he
    simp [handle001, he]

/-- A document with two paragraphs, a non-paragraph structural element and
a non-textRun paragraph element. -/
def doc0 : GoogleDoc :=
  { body := some { content := some [
      { paragraph := some { elements := some [
          { textRun := some { content := "Hello " } },
          { textRun := none } ] } },
      { paragraph := none },
      { paragraph := some { elements := some [
          { textRun := some { content := "world" } } ] } } ] } }

/-- A document-fetch oracle returning `doc0`. -/
def getDocW : OAuth2Client → String → Except String GoogleDoc :=
  fun _ _ => Except.ok doc0

/-- Witness for C5 at the concrete document `doc0`. -/
theorem docContent_response_witness :
    (step000 getTok0 getDocW (oauth2Client env0)
        (Request.docContent "doc1" { access_token := "tok" })).2
      = Response.json 200 (Json.obj [("content", Json.str "Hello world")]) := by
  have h := (docContent_response_spec getTok0 getDocW (oauth2Client env0) env0
      none none "doc1" { access_token := "tok" }).1 doc0 rfl
  rw [h]
  rfl

/-- C6: every GET /auth/callback request, in either server variant, has
exactly two outcomes: on a successful code-for-tokens exchange, a 200 HTML
page whose script posts `{type: 'GOOGLE_AUTH_SUCCESS', tokens}` to the
opener window and falls back to a redirect to '/' when there is no opener
(the page is `callbackHtmlA ++ stringified tokens ++ callbackHtmlB`); on a
failed exchange, status 500 with body "Authentication failed". -/
theorem authCallback_two_outcomes :
    ∀ env getTok getDoc (client : OAuth2Client) code,
      ((∃ t, getTok client.clientId client.clientSecret client.redirectUri code = Except.ok t
          ∧ (step000 getTok getDoc client (Request.authCallback code)).2
              = Response.page 200 (callbackHtmlA ++ Tokens.stringify t ++ callbackHtmlB))
        ∨ (step000 getTok getDoc client (Request.authCallback code)).2
            = Response.page 500 "Authentication failed")
      ∧ ((∃ t, getTok (getOAuth2Client env none none).clientId
              (getOAuth2Client env none none).clientSecret
              (getOAuth2Client env none none).redirectUri code = Except.ok t
          ∧ handle001 env getTok getDoc (Request001.authCallback code)
              = Response.page 200 (callbackHtmlA ++ Tokens.stringify t ++ callbackHtmlB))
        ∨ handle001 env getTok getDoc (Request001.authCallback code)
            = Response.page 500 "Authentication failed") := by
  intro env gt gd client code
  constructor
  · rcases hgt : gt client.clientId client.clientSecret client.redirectUri code with e | t
    · right
      simp [step000, hgt]
    · left
      exact ⟨t, rfl, by simp [step000, hgt, successPage]⟩
  · rcases hgt : gt (getOAuth2Client env none none).clientId
        (getOAuth2Client env none none).clientSecret
        (getOAuth2Client env none none).redirectUri code with e | t
    · right
      simp [handle001, hgt]
    · left
      exact ⟨t, rfl, by simp [handle001, hgt, successPage]⟩

/-- The characters matched by the character class `[-\\w]` of the docId
regex (ASCII word characters and the hyphen). -/
def isDocIdChar (c : Char) : Bool := c.isAlphanum || c == '_' || c == '-'

theorem dropWhile_length_le {α : Type} (p : α → Bool) :
    ∀ l : List α, (l.dropWhile p).length ≤ l.length := by
  intro l
  induction l with
  | nil => simp [List.dropWhile]
  | cons a t ih =>
    rw [List.dropWhile_cons]
    by_cases h : p a
    · simp only [h, if_pos]
      exact Nat.le_succ_of_le ih
    · simp [h]

/-- The leftmost run of at least 25 `[-\\w]` characters, matched greedily,
as `docUrl.match(/[-\\w]\x7b25,\x7d/)` finds it. -/
def findDocIdRun : List Char → Option (List Char)
  | [] => none
  | c :: cs =>
    if isDocIdChar c then
      if 25 ≤ (c :: cs.takeWhile isDocIdChar).length then
        some (c :: cs.takeWhile isDocIdChar)
      else findDocIdRun (cs.dropWhile isDocIdChar)
    else findDocIdRun cs
termination_by l => l.length
decreasing_by
  · exact Nat.lt_succ_of_le (dropWhile_length_le _ _)
  · exact Nat.lt_succ_self _

/-- `docUrl.match(/[-\\w]\x7b25,\x7d/)?.[0]`: the extracted document id, when
the URL contains one. -/
def extractDocId (s : String) : Option String :=
  (findDocIdRun s.data).map String.mk

/-- The client state of the `App` component that `processNotes` reads and
writes. -/
structure ClientState where
  files : List String
  docUrl : String
  isProcessing : Bool
  processedData : Option ProcessedNotes
  errMsg : Option String
  googleTokens : Option Tokens
deriving DecidableEq

/-- The observable steps of one `processNotes` run, in order. -/
inductive Event where
  | collectImages : Event
  | collectDocText : Event
  | analyzeCall : String → Schema → Event
  | imageGenCall : String → Event
  | render : Event

/-- The one analysis call, carrying the fixed prompt and response schema it
is made with. -/
def analyzeEvent : Event := Event.analyzeCall systemInstruction responseSchema

/-- Whether an event is the analysis call. -/
def isAnalyzeCall : Event → Bool
  | Event.analyzeCall _ _ => true
  | _ => false

/-- The image-generation calls fanned out for one section. -/
def sectionGenEvents (s : Section) : List Event :=
  match s.diagrams with
  | some ds => if 0 < ds.length then ds.map Event.imageGenCall else []
  | none => []

/-- The image-generation calls fanned out for all sections. -/
def genEvents (secs : List Section) : List Event :=
  secs.flatMap sectionGenEvents

/-- The part of `processNotes` after the input has been collected: the
analysis call, then — only if it resolved — the image-generation fan-out.
The generation events fire regardless of individual results (the calls run
in parallel); a rejection rejects the run. -/
def afterAnalyze (gen : String → Except String (Option String))
    (collectEv : Event) (r : Except String ProcessedNotes) :
    Except String ProcessedNotes × List Event :=
  match r with
  | Except.error m => (Except.error m, [collectEv, analyzeEvent])
  | Except.ok result =>
      ((sectionsWithImages gen result.sections).map
        (fun secs => { result with sections := secs }),
       collectEv :: analyzeEvent :: genEvents result.sections)

/-- The `try` body of `processNotes`: choose the input source (uploaded
images if any, otherwise the Google Doc), analyse it, then generate the
diagram images.  `analyzeImgs`/`analyzeText` model `analyzeNotes` on the
two input shapes, `fetchDoc` the POST to /api/google-doc/content, `gen`
`generateDiagramImage`; each models a remote call that can reject. -/
def processCore
    (analyzeImgs : List String → Except String ProcessedNotes)
    (fetchDoc : String → Except String String)
    (analyzeText : String → Except String ProcessedNotes)
    (gen : String → Except String (Option String))
    (st : ClientState) : Except String ProcessedNotes × List Event :=
  if st.files ≠ [] then
    afterAnalyze gen Event.collectImages (analyzeImgs st.files)
  else if st.docUrl ≠ "" ∧ st.googleTokens.isSome then
    match extractDocId st.docUrl with
    | none => (Except.error "Invalid Google Doc URL", [])
    | some docId =>
      match fetchDoc docId with
      | Except.error m => (Except.error m, [Event.collectDocText])
      | Except.ok content => afterAnalyze gen Event.collectDocText (analyzeText content)
  else (Except.error "Please provide notes via image or Google Doc", [])

/-- One full `processNotes` run over the client state: on success the
result is stored and rendered; on any thrown error only the error message
is recorded (`err.message || 'Failed to process notes'`); `isProcessing`
is reset in the `finally`. -/
def processNotes
    (analyzeImgs : List String → Except String ProcessedNotes)
    (fetchDoc : String → Except String String)
    (analyzeText : String → Except String ProcessedNotes)
    (gen : String → Except String (Option String))
    (st : ClientState) : ClientState × List Event :=
  match processCore analyzeImgs fetchDoc analyzeText gen st with
  | (Except.ok r, tr) =>
      ({ st with processedData := some r, errMsg := none, isProcessing := false },
       tr ++ [Event.render])
  | (Except.error m, tr) =>
      ({ st with errMsg := some (if m = "" then "Failed to process notes" else m),
                 isProcessing := false },
       tr)

theorem mem_genEvents {e : Event} {secs : List Section} (h : e ∈ genEvents secs) :
    ∃ d, e = Event.imageGenCall d := by
  unfold genEvents at h
  obtain ⟨s, hs, he⟩ := List.mem_flatMap.mp h
  unfold sectionGenEvents at he
  split at he
  · split at he
    · obtain ⟨d, _, rfl⟩ := List.mem_map.mp he
      exact ⟨d, rfl⟩
    · simp at he
  · simp at he

/-- C3: whenever a `processNotes` run succeeds, its trace is exactly: one
input-collection step (the uploaded images when at least one file is
present, otherwise the Google Doc text), then the single analysis call with
the fixed prompt and JSON response schema, then the image-generation calls,
and the render last — in particular no image-generation call precedes the
analysis call. -/
theorem processNotes_pipeline_order
    (analyzeImgs : List String → Except String ProcessedNotes)
    (fetchDoc : String → Except String String)
    (analyzeText : String → Except String ProcessedNotes)
    (gen : String → Except String (Option String))
    (st : ClientState) (res : ProcessedNotes)
    (h : (processCore analyzeImgs fetchDoc analyzeText gen st).1 = Except.ok res) :
    ∃ gens, (∀ e ∈ gens, ∃ d, e = Event.imageGenCall d) ∧
      (processNotes analyzeImgs fetchDoc analyzeText gen st).2
        = (if st.files ≠ [] then Event.collectImages else Event.collectDocText)
          :: Event.analyzeCall systemInstruction responseSchema
          :: (gens ++ [Event.render]) := by
  rcases hcore : processCore analyzeImgs fetchDoc analyzeText gen st with ⟨r1, tr⟩
  rw [hcore] at h
  simp only at h
  subst h
  have htr : (processNotes analyzeImgs fetchDoc analyzeText gen st).2 = tr ++ [Event.render] := by
    unfold processNotes
    rw [hcore]
  unfold processCore at hcore
  by_cases hf : st.files ≠ []
  · rw [if_pos hf] at hcore
    rcases ha : analyzeImgs st.files with m | result <;> rw [ha] at hcore
    · simp [afterAnalyze] at hcore
    · rcases hsw : sectionsWithImages gen result.sections with m2 | secs <;>
        simp only [afterAnalyze, hsw, Except.map, Prod.mk.injEq] at hcore
      · exact absurd hcore.1 (by simp)
      · obtain ⟨h1, h2⟩ := hcore
        refine ⟨genEvents result.sections, fun e he => mem_genEvents he, ?_⟩
        rw [htr, ← h2]
        simp [hf, analyzeEvent]
  · rw [if_neg hf] at hcore
    by_cases hcond : st.docUrl ≠ "" ∧ st.googleTokens.isSome
    · rw [if_pos hcond] at hcore
      split at hcore
      · simp at hcore
      · split at hcore
        · simp at hcore
        · rename_i content hfd2
          rcases hat : analyzeText content with m2 | result <;> rw [hat] at hcore
          · simp [afterAnalyze] at hcore
          · rcases hsw : sectionsWithImages gen result.sections with m2 | secs <;>
              simp only [afterAnalyze, hsw, Except.map, Prod.mk.injEq] at hcore
            · exact absurd hcore.1 (by simp)
            · obtain ⟨h1, h2⟩ := hcore
              refine ⟨genEvents result.sections, fun e he => mem_genEvents he, ?_⟩
              rw [htr, ← h2]
              simp [hf, analyzeEvent]
    · rw [if_neg hcond] at hcore
      simp at hcore

/-- A one-section analysis result with one diagram description. -/
def pnW : ProcessedNotes :=
  { title := "T", sections := [
      { heading := "H", content := "C", isElaborated := true, diagrams := some ["D"] } ] }

/-- `pnW` after the image-generation fan-out with `genW`. -/
def pnW2 : ProcessedNotes :=
  { title := "T", sections := [
      { heading := "H", content := "C", isElaborated := true, diagrams := some ["D"],
        diagramImages := some ["img"] } ] }

/-- A client state with one uploaded file. -/
def stW : ClientState :=
  { files := ["f1"], docUrl := "", isProcessing := false, processedData := none,
    errMsg := none, googleTokens := none }

/-- An analysis oracle resolving to `pnW` on images. -/
def aiW : List String → Except String ProcessedNotes := fun _ => Except.ok pnW

/-- A fetch oracle that always rejects. -/
def fdW : String → Except String String := fun _ => Except.error "nofetch"

/-- A text-analysis oracle that always rejects. -/
def atW : String → Except String ProcessedNotes := fun _ => Except.error "noanalyze"

/-- A generation oracle resolving to the image `"img"`. -/
def genW : String → Except String (Option String) := fun _ => Except.ok (some "img")

/-- Witness for C3 at the concrete state `stW` and oracles. -/
theorem processNotes_pipeline_order_witness :
    ∃ gens, (∀ e ∈ gens, ∃ d, e = Event.imageGenCall d) ∧
      (processNotes aiW fdW atW genW stW).2
        = (if stW.files ≠ [] then Event.collectImages else Event.collectDocText)
          :: Event.analyzeCall systemInstruction responseSchema
          :: (gens ++ [Event.render]) :=
  processNotes_pipeline_order aiW fdW atW genW stW pnW2 rfl

theorem countP_genEvents (secs : List Section) :
    (genEvents secs).countP isAnalyzeCall = 0 := by
  rw [List.countP_eq_zero]
  intro e he
  obtain ⟨d, rfl⟩ := mem_genEvents he
  simp [isAnalyzeCall]

theorem isAnalyzeCall_analyzeEvent : isAnalyzeCall analyzeEvent = true := rfl

theorem afterAnalyze_count (gen : String → Except String (Option String))
    (collectEv : Event) (r : Except String ProcessedNotes)
    (hc : isAnalyzeCall collectEv = false) :
    ((afterAnalyze gen collectEv r).2).countP isAnalyzeCall ≤ 1 := by
  rcases r with m | result
  · simp [afterAnalyze, List.countP_cons, hc, isAnalyzeCall_analyzeEvent]
  · simp [afterAnalyze, List.countP_cons, hc, isAnalyzeCall_analyzeEvent,
      countP_genEvents]

theorem core_trace_count
    (analyzeImgs : List String → Except String ProcessedNotes)
    (fetchDoc : String → Except String String)
    (analyzeText : String → Except String ProcessedNotes)
    (gen : String → Except String (Option String))
    (st : ClientState) :
    ((processCore analyzeImgs fetchDoc analyzeText gen st).2).countP isAnalyzeCall ≤ 1 := by
  unfold processCore
  split
  · exact afterAnalyze_count gen Event.collectImages _ rfl
  · split
    · split
      · simp
      · split
        · simp [List.countP_cons, isAnalyzeCall]
        · exact afterAnalyze_count gen Event.collectDocText _ rfl
    · simp

/-- C7: whenever the `try` body of `processNotes` throws, the run only
reports the error: `error` is set to the thrown message (or to the
fallback text when the message is empty), `processedData` keeps its
previous value, `isProcessing` is reset to `false`, and no retry happens —
the analysis call appears at most once in the trace. -/
theorem processNotes_error_report_only
    (analyzeImgs : List String → Except String ProcessedNotes)
    (fetchDoc : String → Except String String)
    (analyzeText : String → Except String ProcessedNotes)
    (gen : String → Except String (Option String))
    (st : ClientState) (m : String)
    (h : (processCore analyzeImgs fetchDoc analyzeText gen st).1 = Except.error m) :
    (processNotes analyzeImgs fetchDoc analyzeText gen st).1.processedData = st.processedData
    ∧ (processNotes analyzeImgs fetchDoc analyzeText gen st).1.isProcessing = false
    ∧ (processNotes analyzeImgs fetchDoc analyzeText gen st).1.errMsg
        = some (if m = "" then "Failed to process notes" else m)
    ∧ ((processNotes analyzeImgs fetchDoc analyzeText gen st).2).countP isAnalyzeCall ≤ 1 := by
  rcases hcore : processCore analyzeImgs fetchDoc analyzeText gen st with ⟨r1, tr⟩
  rw [hcore] at h
  simp only at h
  subst h
  have hpn : processNotes analyzeImgs fetchDoc analyzeText gen st
      = ({ st with errMsg := some (if m = "" then "Failed to process notes" else m),
                   isProcessing := false }, tr) := by
    unfold processNotes
    rw [hcore]
  rw [hpn]
  refine ⟨rfl, rfl, rfl, ?_⟩
  have := core_trace_count analyzeImgs fetchDoc analyzeText gen st
  rw [hcore] at this
  exact this

/-- A client state with no input at all. -/
def stE : ClientState :=
  { files := [], docUrl := "", isProcessing := true, processedData := some pnW,
    errMsg := none, googleTokens := none }

/-- Witness for C7 at the concrete no-input state `stE`. -/
theorem processNotes_error_report_only_witness :
    (processNotes aiW fdW atW genW stE).1.processedData = stE.processedData
    ∧ (processNotes aiW fdW atW genW stE).1.isProcessing = false
    ∧ (processNotes aiW fdW atW genW stE).1.errMsg
        = some (if "Please provide notes via image or Google Doc" = ""
            then "Failed to process notes" else "Please provide notes via image or Google Doc")
    ∧ ((processNotes aiW fdW atW genW stE).2).countP isAnalyzeCall ≤ 1 :=
  processNotes_error_report_only aiW fdW atW genW stE
    "Please provide notes via image or Google Doc" rfl

/-- What one slide carries: text boxes and images, in insertion order. -/
inductive SlideElem where
  | text : String → SlideElem
  | image : String → SlideElem
deriving DecidableEq

/-- The extra slides `exportToPpt` adds for a section's generated diagram
images (one slide per image, after the guard on a non-empty list). -/
def sectionDiagramSlides (s : Section) : List (List SlideElem) :=
  match s.diagramImages with
  | some imgs =>
    if 0 < imgs.length then
      imgs.map fun img => [SlideElem.text (s.heading ++ " - Diagram"), SlideElem.image img]
    else []
  | none => []

/-- `exportToPpt`: nothing without a processed result; otherwise the title
slide, then per section one heading-and-content slide followed by its
diagram slides. -/
def exportToPpt (pd : Option ProcessedNotes) : List (List SlideElem) :=
  match pd with
  | none => []
  | some d =>
    [[SlideElem.text d.title]]
      ++ d.sections.flatMap fun s =>
          [SlideElem.text s.heading, SlideElem.text s.content] :: sectionDiagramSlides s

theorem sectionDiagramSlides_eq (s : Section) :
    sectionDiagramSlides s
      = (s.diagramImages.getD []).map fun img =>
          [SlideElem.text (s.heading ++ " - Diagram"), SlideElem.image img] := by
  unfold sectionDiagramSlides
  rcases hdi : s.diagramImages with _ | imgs
  · simp
  · by_cases h : 0 < imgs.length
    · simp [h]
    · have himgs : imgs = [] := List.length_eq_zero.mp (Nat.eq_zero_of_not_pos h)
      simp [h, himgs]

/-- C8: the PowerPoint export maps the result onto slides in a fixed
order — one title slide, then for each section in list order one slide
with the heading and content, immediately followed by one slide per
generated diagram image of that section — and does nothing when there is
no processed result. -/
theorem exportToPpt_slide_order :
    exportToPpt none = []
    ∧ ∀ d, exportToPpt (some d)
        = [SlideElem.text d.title]
          :: d.sections.flatMap fun s =>
              [SlideElem.text s.heading, SlideElem.text s.content]
                :: (s.diagramImages.getD []).map fun img =>
                    [SlideElem.text (s.heading ++ " - Diagram"), SlideElem.image img] := by
  constructor
  · rfl
  · intro d
    unfold exportToPpt
    simp [sectionDiagramSlides_eq]

end Scribbler
